import Mathlib

/-!
Shallow embedding of the pdf-rag-app ingestion/retrieval pipeline.

Embedded sources:
* `src/app/vector_db.py` — `QdrantStorage` (`__init__`, `upsert`, `search`);
* `src/app/main.py` — `rag_ingest_pdf._upsert`, `rag_query_pdf_ai`,
  `run_qa_async`, and the declared Inngest rate-limit configuration.

External collaborators (the qdrant client transport, the SentenceTransformer
embedder, the FLAN-T5 generation pipeline, `uuid.uuid5`) are modelled as
explicit function parameters.  Embedding vectors are lists of rationals
standing for lists of floats; none of the verified properties computes with
vector entries, they only flow through the data path.
-/

/-- A transport-level failure of the qdrant client call — the only exception
source inside `QdrantStorage.search` and `QdrantStorage.upsert`. -/
inductive ClientError where
  | connectionFailed
deriving Repr, DecidableEq

/-- Payload of a stored point as returned by the qdrant client; either field
may be absent (read via `payload.get("text", "")` and
`payload.get("source", "")` in `src/app/vector_db.py`). -/
structure HitPayload where
  text : Option String
  source : Option String
deriving Repr, DecidableEq

/-- One scored hit returned by `client.search` (qdrant `ScoredPoint`): a
cosine-similarity score and an optional payload. -/
structure ScoredPoint where
  score : Rat
  payload : Option HitPayload
deriving Repr, DecidableEq

/-- The result dict of `QdrantStorage.search`:
`{"contexts": [...], "sources": [...]}` (`sources` lists the members of the
Python set). -/
structure SearchOutput where
  contexts : List String
  sources : List String
deriving Repr, DecidableEq

/-- `sources.add(...)` on a Python `set`, modelled as insert-if-absent on a
duplicate-free list. -/
def setAdd (s : List String) (x : String) : List String :=
  if x ∈ s then s else s ++ [x]

/-- Text of one hit: `(getattr(r, "payload", None) or {}).get("text", "")`. -/
def hitText (r : ScoredPoint) : String :=
  (r.payload.getD ⟨none, none⟩).text.getD ""

/-- Source of one hit:
`(getattr(r, "payload", None) or {}).get("source", "")`. -/
def hitSource (r : ScoredPoint) : String :=
  (r.payload.getD ⟨none, none⟩).source.getD ""

/-- The result loop of `QdrantStorage.search`: hits with a missing payload or
an empty `"text"` are dropped; each kept text is appended to `contexts` and
its `"source"` is added to the `sources` set. -/
def collectHits : List ScoredPoint → List String → List String → SearchOutput
  | [], contexts, sources => ⟨contexts, sources⟩
  | r :: rest, contexts, sources =>
    if hitText r ≠ "" then
      collectHits rest (contexts ++ [hitText r]) (setAdd sources (hitSource r))
    else
      collectHits rest contexts sources

/-- `QdrantStorage.search`: forwards `top_k` unvalidated as the `limit` of
`client.search` (the client call is the parameter `clientSearch`, taking the
query vector and the limit; collection name and `with_payload=True` are
absorbed into it), then post-processes the returned hits. -/
def QdrantStorage.search
    (clientSearch : List Rat → Int → Except ClientError (List ScoredPoint))
    (query_vector : List Rat) (top_k : Int) : Except ClientError SearchOutput :=
  match clientSearch query_vector top_k with
  | .error e => .error e
  | .ok results => .ok (collectHits results [] [])

/-- Payload written during ingestion:
`{"source": source_id, "text": chunks[i]}` from `src/app/main.py`. -/
structure UpsertPayload where
  source : String
  text : String
deriving Repr, DecidableEq

/-- Qdrant `PointStruct(id=..., vector=..., payload=...)`. -/
structure PointStruct where
  id : String
  vector : List Rat
  payload : UpsertPayload
deriving Repr, DecidableEq

/-- `QdrantStorage.upsert` builds
`[PointStruct(id=ids[i], vector=vectors[i], payload=payloads[i]) for i in
range(len(ids))]` — the point list handed to `client.upsert`.  The Python
indexing `vectors[i]` / `payloads[i]` raises `IndexError` when those lists
are shorter than `ids`; this model totalizes the accesses with defaults and
is therefore faithful only on the equal-length domain, which is where the
ingest path (`ingest_upsert`, under its embedder-contract hypothesis) always
calls it. -/
def QdrantStorage.upsert (ids : List String) (vectors : List (List Rat))
    (payloads : List UpsertPayload) : List PointStruct :=
  (List.range ids.length).map fun i =>
    ⟨ids.getD i "", vectors.getD i [], payloads.getD i ⟨"", ""⟩⟩

/-- Server-side qdrant state seen by `QdrantStorage.__init__`: the existing
collections with their vector dimension. -/
structure QdrantState where
  collections : List (String × Nat)
deriving Repr, DecidableEq

/-- `client.collection_exists(name)`. -/
def collection_exists (st : QdrantState) (name : String) : Bool :=
  st.collections.any fun p => p.1 == name

/-- `client.create_collection(name, VectorParams(size=dim, ...))`. -/
def create_collection (st : QdrantState) (name : String) (dim : Nat) : QdrantState :=
  ⟨st.collections ++ [(name, dim)]⟩

/-- The wrapper object: `self.collection` and `self.dim` as set by
`__init__`. -/
structure QdrantStorage where
  collection : String
  dim : Nat
deriving Repr, DecidableEq

/-- `QdrantStorage.__init__` (`src/app/vector_db.py`): records `collection`
and `dim` on the wrapper and creates the collection only when it does not
exist; an existing collection is left untouched whatever its dimension — the
constructor contains no dimension check.  Returns the new server state and
the wrapper. -/
def QdrantStorage.init (st : QdrantState) (collection : String) (dim : Nat) :
    QdrantState × QdrantStorage :=
  (if collection_exists st collection then st
   else create_collection st collection dim,
   ⟨collection, dim⟩)

/-- Modelled from the spec: `app.custom_types.RAGChunkAndSrc` — the module
`app.custom_types` is imported by `src/app/main.py` but its file is absent
from `src/`; the fields are exactly those used there (`chunks`,
`source_id`). -/
structure RAGChunkAndSrc where
  chunks : List String
  source_id : String
deriving Repr, DecidableEq

/-- Modelled from the spec: `app.custom_types.RAGUpsertResult` (file absent
from `src/`); its single field `ingested` is used in `src/app/main.py`. -/
structure RAGUpsertResult where
  ingested : Nat
deriving Repr, DecidableEq

/-- `f"{source_id}:{i}"` — the name hashed by `uuid.uuid5` during
ingestion. -/
def keyString (source_id : String) (i : Nat) : String :=
  source_id ++ ":" ++ toString i

/-- `str(uuid.uuid5(uuid.NAMESPACE_URL, f"{source_id}:{i}"))`; the external
hash `name ↦ str(uuid.uuid5(NAMESPACE_URL, name))` is the parameter
`uuid5`. -/
def deriveId (uuid5 : String → String) (source_id : String) (i : Nat) : String :=
  uuid5 (keyString source_id i)

/-- `rag_ingest_pdf._upsert` (`src/app/main.py`): embeds the chunks, derives
ids over `range(len(chunks))` and payloads by index, hands the points to
`QdrantStorage.upsert`, and reports `ingested = len(chunks)`.  `embed` is the
external SentenceTransformer encode.  Returns the upserted point list
together with the step result. -/
def ingest_upsert (uuid5 : String → String)
    (embed : List String → List (List Rat)) (chunks_and_src : RAGChunkAndSrc) :
    List PointStruct × RAGUpsertResult :=
  let chunks := chunks_and_src.chunks
  let source_id := chunks_and_src.source_id
  let vecs := embed chunks
  let ids := (List.range chunks.length).map fun i => deriveId uuid5 source_id i
  let payloads := (List.range chunks.length).map fun i =>
    UpsertPayload.mk source_id (chunks.getD i "")
  (QdrantStorage.upsert ids vecs payloads, ⟨chunks.length⟩)

/-- Modelled from the spec: `app.custom_types.RAGSearchResult` (file absent
from `src/`); fields `contexts` and `sources` as constructed in
`src/app/main.py`. -/
structure RAGSearchResult where
  contexts : List String
  sources : List String
deriving Repr, DecidableEq

/-- The result dict of `rag_query_pdf_ai`:
`{"answer": ..., "sources": ..., "num_contexts": ...}`. -/
structure RAGQueryOutput where
  answer : String
  sources : List String
  num_contexts : Nat
deriving Repr, DecidableEq

/-- Failure of the external text2text generation pipeline. -/
inductive GenError where
  | generationFailed
deriving Repr, DecidableEq

/-- `run_qa_async` (`src/app/main.py`): runs the generation pipeline on the
prompt and strips surrounding whitespace from
`result[0]["generated_text"]`. -/
def run_qa (qa_pipeline : String → Except GenError String) (prompt : String) :
    Except GenError String :=
  (qa_pipeline prompt).map String.trim

/-- `"\n\n".join(f"- {c}" for c in found.contexts)`. -/
def context_block (contexts : List String) : String :=
  String.intercalate "\n\n" (contexts.map fun c => "- " ++ c)

/-- The `user_content` prompt assembled by `rag_query_pdf_ai`. -/
def user_content (contexts : List String) (question : String) : String :=
  "Context:\n" ++ context_block contexts ++ "\n\nQuestion: " ++ question ++
    "\nAnswer concisely using the context above."

/-- Spec-side rendering of the prompt the claim describes (NOT taken from the
source; stated for comparison with `user_content`): the same assembly but
with an instruction to answer using ONLY the given context. -/
def user_content_claimed (contexts : List String) (question : String) : String :=
  "Context:\n" ++ context_block contexts ++ "\n\nQuestion: " ++ question ++
    "\nAnswer concisely using only the context above."

/-- The post-search part of `rag_query_pdf_ai` (`src/app/main.py`): given the
output of the `embed-and-search` step, short-circuit on an empty context
list, otherwise assemble the prompt, call generation through `run_qa` and
package the answer. -/
def rag_query_pdf_ai (found : RAGSearchResult) (question : String)
    (qa_pipeline : String → Except GenError String) :
    Except GenError RAGQueryOutput :=
  if found.contexts.isEmpty then
    .ok ⟨"No relevant information found in the documents.", [], 0⟩
  else
    (run_qa qa_pipeline (user_content found.contexts question)).map fun answer =>
      ⟨answer, found.sources, found.contexts.length⟩

/-- `limit=1` from the `inngest.RateLimit` configuration of `rag_ingest_pdf`
(`src/app/main.py`). -/
def rate_limit_limit : Nat := 1

/-- Seconds in the configured rate-limit window:
`period=datetime.timedelta(hours=4)` from `src/app/main.py`. -/
def rate_limit_period : Nat := 4 * 60 * 60

/-- Modelled from the spec: the admission state of the Inngest rate limiter
(the platform interpreting the `rate_limit=` configuration is not part of
`src/`).  Per key — the key expression is `event.data.source_id` — the start
time of the currently open window and the number of requests admitted in
it. -/
structure RateLimiterState where
  windows : List (String × Nat × Nat)
deriving Repr, DecidableEq

/-- The open window (start time, admitted count) recorded for `key`. -/
def lookupWindow (st : RateLimiterState) (key : String) : Option (Nat × Nat) :=
  (st.windows.find? fun p => p.1 == key).map (·.2)

/-- Outcome of rate-limit admission. -/
inductive Verdict where
  | allowed
  | rateLimitExceeded
deriving Repr, DecidableEq

/-- Replace the record for `key` by `(key, start, count)`. -/
def setWindow (st : RateLimiterState) (key : String) (start count : Nat) :
    RateLimiterState :=
  ⟨(key, start, count) :: st.windows.filter fun p => p.1 != key⟩

/-- Modelled from the spec: one admission decision of the Inngest rate
limiter for a request with key `key` at time `now`.  If no window is open
for the key (or the open one has elapsed), the request is allowed and a
fresh window starts at `now`; inside an open window, requests beyond
`rate_limit_limit` are rejected with `RateLimitExceeded`, are not queued and
leave the state unchanged. -/
def rateLimitCheck (st : RateLimiterState) (key : String) (now : Nat) :
    Verdict × RateLimiterState :=
  match lookupWindow st key with
  | none => (.allowed, setWindow st key now 1)
  | some (t0, c) =>
    if now < t0 + rate_limit_period then
      if c < rate_limit_limit then (.allowed, setWindow st key t0 (c + 1))
      else (.rateLimitExceeded, st)
    else (.allowed, setWindow st key now 1)

/-! ## Theorems -/

/-- C2: when the `embed-and-search` step yields zero contexts,
`rag_query_pdf_ai` returns exactly the fixed result
`{answer: "No relevant information found in the documents.", sources: [],
num_contexts: 0}`, for every generation capability `qa_pipeline` — including
a failing one — so generation is never consulted and the result does not
depend on it succeeding. -/
theorem rag_query_empty_contexts (found : RAGSearchResult) (question : String)
    (qa_pipeline : String → Except GenError String)
    (h : found.contexts = []) :
    rag_query_pdf_ai found question qa_pipeline =
      .ok ⟨"No relevant information found in the documents.", [], 0⟩ := by
  simp [rag_query_pdf_ai, h]

theorem rag_query_empty_contexts_witness :
    rag_query_pdf_ai ⟨[], ["s"]⟩ "q" (fun _ => .error .generationFailed) =
      .ok ⟨"No relevant information found in the documents.", [], 0⟩ :=
  rag_query_empty_contexts ⟨[], ["s"]⟩ "q" (fun _ => .error .generationFailed) rfl

/-- C9 counterexample: the prompt built by the code ends with
`"Answer concisely using the context above."` — at a concrete query it is
exactly that literal and differs from the claim's rendering
(`user_content_claimed`), whose instruction says to use ONLY the given
context; the word `"only"` is absent from the code's instruction. -/
theorem rag_query_prompt_wording_cex :
    user_content ["c"] "Q" =
      "Context:\n- c\n\nQuestion: Q\nAnswer concisely using the context above." ∧
    user_content ["c"] "Q" ≠ user_content_claimed ["c"] "Q" := by
  constructor
  · rfl
  · decide

/-- C9 amended: with at least one retrieved context, the prompt handed to
generation is exactly `"Context:\n"` followed by every retrieved context as
a `"- "`-prefixed bullet (bullets separated by blank lines), the question,
and the instruction `"Answer concisely using the context above."` — which
does not say "only" — and the generated text is returned with surrounding
whitespace stripped, alongside the sources and the context count. -/
theorem rag_query_prompt_and_strip (found : RAGSearchResult)
    (question : String) (qa_pipeline : String → Except GenError String)
    (a : String) (hne : found.contexts ≠ [])
    (hqa : qa_pipeline ("Context:\n" ++
        String.intercalate "\n\n" (found.contexts.map fun c => "- " ++ c) ++
        "\n\nQuestion: " ++ question ++
        "\nAnswer concisely using the context above.") = .ok a) :
    rag_query_pdf_ai found question qa_pipeline =
      .ok ⟨a.trim, found.sources, found.contexts.length⟩ := by
  have hfalse : found.contexts.isEmpty = false := by
    cases hc : found.contexts with
    | nil => exact absurd hc hne
    | cons x xs => rfl
  simp [rag_query_pdf_ai, hfalse, run_qa, user_content, context_block, hqa,
    Except.map]

theorem rag_query_prompt_and_strip_witness :
    rag_query_pdf_ai ⟨["c1", "c2"], ["s1"]⟩ "Q" (fun _ => .ok " A ") =
      .ok ⟨" A ".trim, ["s1"], 2⟩ :=
  rag_query_prompt_and_strip ⟨["c1", "c2"], ["s1"]⟩ "Q" (fun _ => .ok " A ")
    " A " (by decide) rfl

/-- C6 counterexample: `search` called with `top_k = 0` is not rejected with
any `InvalidParameter`: with a succeeding client it returns a normal (empty)
result, and with a failing client the client error surfaces — so the client
call (the I/O) is performed even for a non-positive `top_k`. -/
theorem search_no_topk_validation_cex :
    QdrantStorage.search (fun _ _ => .ok []) [] 0 = .ok ⟨[], []⟩ ∧
    QdrantStorage.search (fun _ _ => .error .connectionFailed) [] 0 =
      .error .connectionFailed :=
  ⟨rfl, rfl⟩

/-- C6 amended: `search` performs no `top_k` validation at all — also for
`top_k ≤ 0` it performs the client call with that limit and returns exactly
its processed response; neither `QdrantStorage.search` nor the caller in
`rag_query_pdf_ai` rejects a non-positive `top_k` before I/O. -/
theorem search_forwards_nonpositive_topk
    (clientSearch : List Rat → Int → Except ClientError (List ScoredPoint))
    (q : List Rat) (top_k : Int) (h : top_k ≤ 0) :
    QdrantStorage.search clientSearch q top_k =
      (clientSearch q top_k).map fun results => collectHits results [] [] := by
  unfold QdrantStorage.search
  cases clientSearch q top_k <;> rfl

theorem search_forwards_nonpositive_topk_witness :
    QdrantStorage.search (fun _ _ => .ok [ScoredPoint.mk 1 none]) [] (-1) =
      (Except.ok [ScoredPoint.mk 1 none]).map fun results =>
        collectHits results [] [] :=
  search_forwards_nonpositive_topk (fun _ _ => .ok [ScoredPoint.mk 1 none])
    [] (-1) (by decide)

/-- Characterization of the `collectHits` loop: the kept hits are the filter
of the input by nonempty text; their texts append to `contexts` in order and
their sources fold into the set accumulator. -/
lemma collectHits_eq (hits : List ScoredPoint) :
    ∀ contexts sources : List String,
    collectHits hits contexts sources =
      ⟨contexts ++ (hits.filter fun r => hitText r != "").map hitText,
       List.foldl setAdd sources
         ((hits.filter fun r => hitText r != "").map hitSource)⟩ := by
  induction hits with
  | nil => intro contexts sources; simp [collectHits]
  | cons r rest ih =>
    intro contexts sources
    by_cases h : hitText r = ""
    · simp [collectHits, h, ih, List.filter_cons]
    · simp [collectHits, h, ih, List.filter_cons]

lemma mem_setAdd (s : List String) (x y : String) :
    y ∈ setAdd s x ↔ y ∈ s ∨ y = x := by
  by_cases h : x ∈ s
  · simp only [setAdd, if_pos h]
    exact ⟨Or.inl, fun hy => hy.elim id fun e => e ▸ h⟩
  · simp [setAdd, if_neg h]

lemma mem_foldl_setAdd (l : List String) :
    ∀ (init : List String) (y : String),
    y ∈ List.foldl setAdd init l ↔ y ∈ init ∨ y ∈ l := by
  induction l with
  | nil => simp
  | cons x xs ih =>
    intro init y
    simp [List.foldl_cons, ih, mem_setAdd, List.mem_cons, or_assoc]

lemma nodup_setAdd (s : List String) (x : String) (h : s.Nodup) :
    (setAdd s x).Nodup := by
  by_cases hx : x ∈ s
  · simpa [setAdd, if_pos hx]
  · rw [setAdd, if_neg hx]
    exact List.Nodup.append h (List.nodup_singleton x)
      fun a ha hax => hx ((List.mem_singleton.mp hax) ▸ ha)

lemma nodup_foldl_setAdd (l : List String) :
    ∀ init : List String, init.Nodup → (List.foldl setAdd init l).Nodup := by
  induction l with
  | nil => intro init h; simpa
  | cons x xs ih => intro init h; exact ih _ (nodup_setAdd _ _ h)

/-- C10: for every list of store hits, the search post-processing returns
only non-empty context texts; hits with a missing payload or empty `"text"`
are dropped (so there may be fewer contexts than hits and their sources are
not recorded); every returned source is the source of at least one returned
context; and the source set holds each source at most once. -/
theorem search_result_hygiene (hits : List ScoredPoint) :
    (∀ c ∈ (collectHits hits [] []).contexts, c ≠ "") ∧
    (collectHits hits [] []).contexts.length ≤ hits.length ∧
    (∀ s ∈ (collectHits hits [] []).sources, ∃ r ∈ hits,
      hitText r ≠ "" ∧ hitSource r = s ∧
      hitText r ∈ (collectHits hits [] []).contexts) ∧
    (collectHits hits [] []).sources.Nodup := by
  rw [collectHits_eq hits [] []]
  refine ⟨?_, ?_, ?_, ?_⟩
  · intro c hc
    simp only [List.nil_append, List.mem_map, List.mem_filter] at hc
    obtain ⟨r, ⟨_, hkeep⟩, rfl⟩ := hc
    simpa using hkeep
  · simpa using le_trans (List.length_filter_le _ _) (le_refl hits.length)
  · intro s hs
    simp only [mem_foldl_setAdd, List.not_mem_nil, false_or, List.mem_map,
      List.mem_filter] at hs
    obtain ⟨r, ⟨hrmem, hkeep⟩, rfl⟩ := hs
    refine ⟨r, hrmem, by simpa using hkeep, rfl, ?_⟩
    simp only [List.nil_append, List.mem_map, List.mem_filter]
    exact ⟨r, ⟨hrmem, hkeep⟩, rfl⟩
  · exact nodup_foldl_setAdd _ [] List.nodup_nil

theorem search_result_hygiene_witness :
    (("t" : String) ≠ "") ∧
    (collectHits [⟨1, some ⟨some "t", some "s"⟩⟩, ⟨0, none⟩] [] []).contexts.length ≤ 2 :=
  ⟨(search_result_hygiene [⟨1, some ⟨some "t", some "s"⟩⟩, ⟨0, none⟩]).1 "t"
      (by decide),
   (search_result_hygiene [⟨1, some ⟨some "t", some "s"⟩⟩, ⟨0, none⟩]).2.1⟩

/-- C4: if the store client honours its contract — it returns at most
`top_k` hits, ranked by descending cosine score — then for every positive
`top_k` the wrapper returns those hits post-processed, the number of
returned contexts is at most `top_k`, the contexts are (in order) the texts
of the kept hits, and the kept hits' scores are descending. -/
theorem search_topk_bound_and_order
    (clientSearch : List Rat → Int → Except ClientError (List ScoredPoint))
    (q : List Rat) (top_k : Int) (hits : List ScoredPoint)
    (hpos : 0 < top_k)
    (hok : clientSearch q top_k = .ok hits)
    (hlen : hits.length ≤ top_k.toNat)
    (hsorted : List.Pairwise (fun a b => b.score ≤ a.score) hits) :
    QdrantStorage.search clientSearch q top_k = .ok (collectHits hits [] []) ∧
    (collectHits hits [] []).contexts.length ≤ top_k.toNat ∧
    (collectHits hits [] []).contexts =
      (hits.filter fun r => hitText r != "").map hitText ∧
    List.Pairwise (fun a b => b ≤ a)
      ((hits.filter fun r => hitText r != "").map ScoredPoint.score) := by
  refine ⟨?_, ?_, ?_, ?_⟩
  · unfold QdrantStorage.search; rw [hok]
  · rw [collectHits_eq hits [] []]
    simpa using le_trans (List.length_filter_le _ _) hlen
  · rw [collectHits_eq hits [] []]; simp
  · exact (hsorted.filter _).map _ fun a b h => h

theorem search_topk_bound_and_order_witness :
    QdrantStorage.search
        (fun _ _ => .ok [⟨1, some ⟨some "t1", some "s"⟩⟩,
          ⟨0, some ⟨some "t2", some "s"⟩⟩]) [] 2 =
      .ok (collectHits [⟨1, some ⟨some "t1", some "s"⟩⟩,
        ⟨0, some ⟨some "t2", some "s"⟩⟩] [] []) :=
  (search_topk_bound_and_order
    (fun _ _ => .ok [⟨1, some ⟨some "t1", some "s"⟩⟩,
      ⟨0, some ⟨some "t2", some "s"⟩⟩]) [] 2
    [⟨1, some ⟨some "t1", some "s"⟩⟩, ⟨0, some ⟨some "t2", some "s"⟩⟩]
    (by decide) rfl (by decide) (by decide)).1

lemma getD_map_range {α : Type} (n i : Nat) (f : Nat → α) (d : α)
    (h : i < n) : ((List.range n).map f).getD i d = f i := by
  simp [List.getD_eq_getElem?_getD, List.getElem?_map, List.getElem?_range, h]

lemma range_map_getD {α : Type} (l : List α) (d : α) :
    (List.range l.length).map (fun i => l.getD i d) = l := by
  apply List.ext_getElem (by simp)
  intro i h1 h2
  have h2' : i < l.length := by simpa using h1
  simp [List.getD_eq_getElem?_getD, List.getElem?_eq_getElem h2']

/-- C8: with an embedder that returns one vector per chunk (the §6
collaborator contract), a successful ingest of `n` chunks upserts exactly
`n` points whose ids are derived from the contiguous index sequence
`0..n-1`, with one vector and one `{source, text}` payload per chunk in
chunk order, and the step result is `{ingested: n}`. -/
theorem ingest_upsert_contiguous (uuid5 : String → String)
    (embed : List String → List (List Rat)) (cs : RAGChunkAndSrc)
    (hlen : (embed cs.chunks).length = cs.chunks.length) :
    (ingest_upsert uuid5 embed cs).1.map PointStruct.id =
      (List.range cs.chunks.length).map
        (fun i => deriveId uuid5 cs.source_id i) ∧
    (ingest_upsert uuid5 embed cs).1.map PointStruct.vector =
      embed cs.chunks ∧
    (ingest_upsert uuid5 embed cs).1.map PointStruct.payload =
      cs.chunks.map (fun c => ⟨cs.source_id, c⟩) ∧
    (ingest_upsert uuid5 embed cs).1.length = cs.chunks.length ∧
    (ingest_upsert uuid5 embed cs).2 = ⟨cs.chunks.length⟩ := by
  have hupsert : (ingest_upsert uuid5 embed cs).1 =
      (List.range cs.chunks.length).map (fun i =>
        PointStruct.mk (deriveId uuid5 cs.source_id i)
          ((embed cs.chunks).getD i [])
          ⟨cs.source_id, cs.chunks.getD i ""⟩) := by
    simp only [ingest_upsert, QdrantStorage.upsert, List.length_map,
      List.length_range]
    apply List.ext_getElem (by simp)
    intro i h1 h2
    simp only [List.getElem_map, List.getElem_range]
    rw [getD_map_range, getD_map_range]
    · simpa using h2
    · simpa using h2
  refine ⟨?_, ?_, ?_, ?_, ?_⟩
  · rw [hupsert, List.map_map]; rfl
  · rw [hupsert, List.map_map, ← hlen]
    exact range_map_getD (embed cs.chunks) []
  · rw [hupsert, List.map_map]
    conv_rhs => rw [← range_map_getD cs.chunks ""]
    rw [List.map_map]
    rfl
  · rw [hupsert]; simp
  · simp [ingest_upsert]

theorem ingest_upsert_contiguous_witness :
    (ingest_upsert (fun s => s)
      (fun ts => ts.map fun _ => []) ⟨["a", "b"], "s"⟩).2 = ⟨2⟩ :=
  (ingest_upsert_contiguous (fun s => s) (fun ts => ts.map fun _ => [])
    ⟨["a", "b"], "s"⟩ rfl).2.2.2.2

/-- C7: with the configured window (`limit=1` per `rate_limit_period`
seconds, keyed by `event.data.source_id`), a first ingest request for a
source is allowed, a second one for the same source inside the window is
rejected with `RateLimitExceeded` — leaving the limiter state unchanged, so
it is not queued — and a request after the window has elapsed is allowed
again. -/
theorem rate_limit_window (st0 : RateLimiterState) (s : String)
    (t1 t2 t3 : Nat)
    (hfresh : lookupWindow st0 s = none)
    (h12 : t1 ≤ t2) (h2in : t2 < t1 + rate_limit_period)
    (h3out : t1 + rate_limit_period ≤ t3) :
    (rateLimitCheck st0 s t1).1 = .allowed ∧
    (rateLimitCheck (rateLimitCheck st0 s t1).2 s t2).1 =
      .rateLimitExceeded ∧
    (rateLimitCheck (rateLimitCheck st0 s t1).2 s t2).2 =
      (rateLimitCheck st0 s t1).2 ∧
    (rateLimitCheck (rateLimitCheck st0 s t1).2 s t3).1 = .allowed := by
  have hst1 : rateLimitCheck st0 s t1 = (.allowed, setWindow st0 s t1 1) := by
    simp [rateLimitCheck, hfresh]
  have hlook : lookupWindow (setWindow st0 s t1 1) s = some (t1, 1) := by
    simp [lookupWindow, setWindow, List.find?_cons]
  have hge : ¬ t3 < t1 + rate_limit_period := by omega
  refine ⟨by simp [hst1], ?_, ?_, ?_⟩ <;> rw [hst1]
  · simp only [rateLimitCheck, hlook]
    rw [if_pos h2in, if_neg (by simp [rate_limit_limit])]
  · simp only [rateLimitCheck, hlook]
    rw [if_pos h2in, if_neg (by simp [rate_limit_limit])]
  · simp only [rateLimitCheck, hlook]
    rw [if_neg hge]

theorem rate_limit_window_witness :
    (rateLimitCheck (rateLimitCheck ⟨[]⟩ "src" 0).2 "src" 100).1 =
      .rateLimitExceeded :=
  (rate_limit_window ⟨[]⟩ "src" 0 100 14400 rfl (by decide) (by decide)
    (by decide)).2.1

/-- Decimal digit characters of `n`, most significant first — `Nat.toDigits
10` with the fuel argument removed. -/
def decDigits (n : Nat) : List Char :=
  if h : n < 10 then [Nat.digitChar n]
  else decDigits (n / 10) ++ [Nat.digitChar (n % 10)]
decreasing_by exact Nat.div_lt_self (by omega) (by omega)

lemma toDigitsCore_eq_decDigits (f : Nat) :
    ∀ (n : Nat) (l : List Char), n < f →
    Nat.toDigitsCore 10 f n l = decDigits n ++ l := by
  induction f with
  | zero => intro n l h; omega
  | succ f ih =>
    intro n l h
    simp only [Nat.toDigitsCore]
    by_cases h10 : n / 10 = 0
    · have hn : n < 10 := by omega
      rw [if_pos h10, decDigits, dif_pos hn, Nat.mod_eq_of_lt hn]
      simp
    · have hn : ¬ n < 10 := by omega
      rw [if_neg h10, ih (n / 10) _ (by omega)]
      conv_rhs => rw [decDigits]
      rw [dif_neg hn]
      simp [List.append_assoc]

lemma repr_data_eq_decDigits (n : Nat) : (Nat.repr n).data = decDigits n := by
  show Nat.toDigitsCore 10 (n + 1) n [] = decDigits n
  rw [toDigitsCore_eq_decDigits (n + 1) n [] (Nat.lt_succ_self n),
    List.append_nil]

/-- Numeric value of a decimal digit character. -/
def digitVal (c : Char) : Nat := c.toNat - 48

lemma digitVal_digitChar : ∀ m < 10, digitVal (Nat.digitChar m) = m := by
  decide

lemma digitChar_ne_colon : ∀ m < 10, Nat.digitChar m ≠ ':' := by decide

/-- Value of a big-endian decimal digit string. -/
def digitsVal (l : List Char) : Nat :=
  l.foldl (fun a c => 10 * a + digitVal c) 0

lemma digitsVal_append_sing (xs : List Char) (c : Char) :
    digitsVal (xs ++ [c]) = 10 * digitsVal xs + digitVal c := by
  simp [digitsVal, List.foldl_append]

lemma digitsVal_decDigits (n : Nat) : digitsVal (decDigits n) = n := by
  induction n using Nat.strong_induction_on with
  | _ n ih =>
    rw [decDigits]
    by_cases h : n < 10
    · rw [dif_pos h]
      have := digitVal_digitChar n h
      simp [digitsVal, this]
    · rw [dif_neg h, digitsVal_append_sing, ih (n / 10) (by omega),
        digitVal_digitChar (n % 10) (by omega)]
      omega

lemma nat_repr_injective (m n : Nat) (h : Nat.repr m = Nat.repr n) :
    m = n := by
  have hd : decDigits m = decDigits n := by
    rw [← repr_data_eq_decDigits, ← repr_data_eq_decDigits, h]
  have hv := congrArg digitsVal hd
  rwa [digitsVal_decDigits, digitsVal_decDigits] at hv

lemma colon_not_mem_decDigits (n : Nat) : ':' ∉ decDigits n := by
  induction n using Nat.strong_induction_on with
  | _ n ih =>
    rw [decDigits]
    by_cases h : n < 10
    · rw [dif_pos h]
      simp only [List.mem_singleton]
      exact fun e => digitChar_ne_colon n h e.symm
    · rw [dif_neg h]
      simp only [List.mem_append, List.mem_singleton]
      rintro (hc | hc)
      · exact ih (n / 10) (by omega) hc
      · exact digitChar_ne_colon (n % 10) (by omega) hc.symm

lemma append_colon_cons_inj :
    ∀ u u' v v' : List Char, ':' ∉ u → ':' ∉ u' →
    u ++ ':' :: v = u' ++ ':' :: v' → u = u' ∧ v = v' := by
  intro u
  induction u with
  | nil =>
    intro u' v v' _ hu' h
    cases u' with
    | nil => simpa using h
    | cons c u'' =>
      simp only [List.nil_append, List.cons_append, List.cons.injEq] at h
      have : ':' ∈ c :: u'' := by rw [← h.1]; exact List.mem_cons_self ':' u''
      exact absurd this hu'
  | cons c u₁ ih =>
    intro u' v v' hu hu' h
    cases u' with
    | nil =>
      simp only [List.cons_append, List.nil_append, List.cons.injEq] at h
      have : ':' ∈ c :: u₁ := by rw [h.1]; exact List.mem_cons_self ':' u₁
      exact absurd this hu
    | cons c' u₁' =>
      simp only [List.cons_append, List.cons.injEq] at h
      obtain ⟨rfl, h2⟩ := h
      have hrec := ih u₁' v v' (fun hm => hu (List.mem_cons_of_mem _ hm))
        (fun hm => hu' (List.mem_cons_of_mem _ hm)) h2
      exact ⟨by rw [hrec.1], hrec.2⟩

lemma keyString_inj (s s' : String) (i i' : Nat)
    (h : keyString s i = keyString s' i') : s = s' ∧ i = i' := by
  have hdata : s.data ++ ':' :: (Nat.repr i).data =
      s'.data ++ ':' :: (Nat.repr i').data := by
    have hc := congrArg String.data h
    simpa [keyString, String.data_append] using hc
  have hrev := congrArg List.reverse hdata
  simp only [List.reverse_append, List.reverse_cons, List.append_assoc,
    List.singleton_append] at hrev
  have hu : ':' ∉ (Nat.repr i).data.reverse := by
    rw [List.mem_reverse, repr_data_eq_decDigits]
    exact colon_not_mem_decDigits i
  have hu' : ':' ∉ (Nat.repr i').data.reverse := by
    rw [List.mem_reverse, repr_data_eq_decDigits]
    exact colon_not_mem_decDigits i'
  obtain ⟨h1, h2⟩ := append_colon_cons_inj _ _ _ _ hu hu' hrev
  constructor
  · exact String.ext (List.reverse_injective h2)
  · exact nat_repr_injective i i'
      (String.ext (List.reverse_injective h1))

/-- C1: `deriveId` is a pure deterministic function of `(source_id, index)`
alone — identical pairs always give the identical id string — and distinct
pairs feed distinct key strings `f"{source_id}:{index}"` to the hash, so two
distinct pairs can share an id only through a collision of the external
`uuid5` hash itself. -/
theorem deriveId_deterministic_and_injective (uuid5 : String → String)
    (s₁ s₂ : String) (i₁ i₂ : Nat) :
    (s₁ = s₂ → i₁ = i₂ → deriveId uuid5 s₁ i₁ = deriveId uuid5 s₂ i₂) ∧
    (deriveId uuid5 s₁ i₁ = deriveId uuid5 s₂ i₂ →
      (s₁ = s₂ ∧ i₁ = i₂) ∨ ∃ x y, x ≠ y ∧ uuid5 x = uuid5 y) := by
  constructor
  · rintro rfl rfl; rfl
  · intro h
    by_cases hk : keyString s₁ i₁ = keyString s₂ i₂
    · exact Or.inl (keyString_inj _ _ _ _ hk)
    · exact Or.inr ⟨keyString s₁ i₁, keyString s₂ i₂, hk, h⟩

theorem deriveId_deterministic_and_injective_witness :
    deriveId (fun _ => "c") "a" 0 = deriveId (fun _ => "c") "a" 0 ∧
    (("a" = "b" ∧ (0 : Nat) = 0) ∨
      ∃ x y, x ≠ y ∧
        (fun _ : String => "c") x = (fun _ : String => "c") y) :=
  ⟨(deriveId_deterministic_and_injective (fun _ => "c") "a" "a" 0 0).1
      rfl rfl,
   (deriveId_deterministic_and_injective (fun _ => "c") "a" "b" 0 0).2 rfl⟩
